import Mathlib

/-!
Shallow embedding of the trending-sound core: the time-series storage model
(`internal/storage`) and the trend detector (`internal/detector/detector.go`).

Conventions of the embedding:
- Go `int64` / `int` values are modelled as unbounded `Int` (no claim here
  probes overflow behaviour).
- Go `float64` arithmetic is modelled as exact rational arithmetic (`ℚ`).
- Go `time.Time` is modelled as `Int` (an instant on a discrete time line);
  `time.Duration` of `h` hours is `h * 3600` time units.
- Fallible Go calls `(T, error)` are modelled as `Except Err T`; a Go
  `(*T, error)` whose `nil, nil` case means "not found" is
  `Except Err (Option T)`.
- Stateful storage methods are modelled as explicit state passing over a
  `DB` value; the generic helper `SaveSoundWithHistory`, written in Go
  against the `Storage` interface, is modelled against a record of
  state-passing operations (`StorageIface`).
-/

/-- Errors are modelled as strings (Go `error` values carry a message). -/
abbrev Err := String

/-- Embedding of `storage.Sound` (internal/storage/models.go). -/
structure Sound where
  id : Int
  title : String
  author : String
  url : String
  usesCount : Int
  category : String
  createdAt : Int
  updatedAt : Int
deriving DecidableEq

/-- Embedding of `storage.SoundHistory` (internal/storage/models.go). -/
structure SoundHistory where
  id : Int
  soundId : Int
  usesCount : Int
  recordedAt : Int
deriving DecidableEq

/-- Embedding of `storage.TrendingSound` (internal/storage/models.go):
a sound together with its growth metrics. -/
structure TrendingSound where
  sound : Sound
  growthPercent : ℚ
  oldUsesCount : Int
deriving DecidableEq

/-- Embedding of `detector.TrendCriteria` (internal/detector/detector.go). -/
structure TrendCriteria where
  minUsesCount : Int
  maxUsesCount : Int
  minGrowth : ℚ
  lookbackHours : Int
deriving DecidableEq

/-- Embedding of `detector.DefaultCriteria`. -/
def DefaultCriteria : TrendCriteria :=
  { minUsesCount := 500
    maxUsesCount := 30000
    minGrowth := 150
    lookbackHours := 24 }

/-- Embedding of `detector.calculateGrowth`: growth percentage, with the
division guarded by the `oldCount == 0` check. -/
def calculateGrowth (oldCount newCount : Int) : ℚ :=
  if oldCount = 0 then 0
  else ((newCount : ℚ) - (oldCount : ℚ)) / (oldCount : ℚ) * 100

/-- The special growth marker `999.9` the detector stores for new sounds
(zero baseline), as an exact rational. -/
def sentinelGrowth : ℚ := 9999 / 10

/-- The per-sound body of the loop in `DetectTrendingWithCriteria`
(detector.go lines 59-97): band filter, missing-history filter,
zero-baseline special case, and the growth-threshold test. Returns the
`TrendingSound` appended for this sound, if any. -/
def processSound (criteria : TrendCriteria) (hist : Option SoundHistory)
    (sound : Sound) : Option TrendingSound :=
  if sound.usesCount < criteria.minUsesCount ∨
      sound.usesCount > criteria.maxUsesCount then
    none
  else
    match hist with
    | none => none
    | some history =>
      let oldCount := history.usesCount
      if oldCount = 0 then
        if sound.usesCount ≥ criteria.minUsesCount then
          some { sound := sound, growthPercent := sentinelGrowth, oldUsesCount := 0 }
        else
          none
      else
        let growth := calculateGrowth oldCount sound.usesCount
        if growth ≥ criteria.minGrowth then
          some { sound := sound, growthPercent := growth, oldUsesCount := oldCount }
        else
          none

/-- The descending-growth comparison used by the `sort.Slice` call in
`DetectTrendingWithCriteria`: `a` sorts no later than `b` when
`a.growthPercent ≥ b.growthPercent`. -/
def growthGe (a b : TrendingSound) : Prop :=
  b.growthPercent ≤ a.growthPercent

instance : DecidableRel growthGe := fun a b =>
  inferInstanceAs (Decidable (b.growthPercent ≤ a.growthPercent))

instance : IsTotal TrendingSound growthGe :=
  ⟨fun a b => le_total b.growthPercent a.growthPercent⟩

instance : IsTrans TrendingSound growthGe :=
  ⟨fun _ _ _ hab hbc => le_trans hbc hab⟩

/-- The pure core of `DetectTrendingWithCriteria` (detector.go lines 57-111),
taking the data `GetAllSoundsWithHistory` returned: filter and score each
sound, sort by growth percentage descending, then apply the limit. -/
def detectCore (criteria : TrendCriteria) (limit : Int) (sounds : List Sound)
    (historyMap : List (Int × SoundHistory)) : List TrendingSound :=
  let trendingSounds :=
    sounds.filterMap (fun sound =>
      processSound criteria (historyMap.lookup sound.id) sound)
  let sorted := trendingSounds.insertionSort growthGe
  if limit > 0 ∧ (sorted.length : Int) > limit then
    sorted.take limit.toNat
  else
    sorted

/-! ## Storage model (internal/storage, SQLite implementation) -/

/-- The persistent state of the SQLite store: the `sounds` and
`sound_history` tables of migrations/init.sql, plus the AUTOINCREMENT
counters. -/
structure DB where
  sounds : List Sound
  history : List SoundHistory
  nextSoundId : Int
  nextHistoryId : Int
deriving DecidableEq

/-- The empty database (freshly initialised schema). -/
def DB.empty : DB :=
  { sounds := [], history := [], nextSoundId := 1, nextHistoryId := 1 }

/-- Embedding of `SQLiteStorage.GetSoundByURL`: `SELECT ... WHERE url = ?`,
with `sql.ErrNoRows` mapped to the non-error absence result `none`.
Reads do not change the state. -/
def getSoundByURL (db : DB) (url : String) : Option Sound :=
  db.sounds.find? (fun s => s.url = url)

/-- Embedding of `SQLiteStorage.SaveSound`: `INSERT INTO sounds ...`.
The `url` column is declared `UNIQUE` in migrations/init.sql, so inserting
a duplicate url fails with a constraint error; otherwise the row is
appended with a fresh AUTOINCREMENT id, which is also stored back into the
sound (Go sets `sound.ID` from `LastInsertId`). -/
def saveSound (db : DB) (sound : Sound) : Except Err (Sound × DB) :=
  if db.sounds.any (fun t => t.url = sound.url) then
    .error "UNIQUE constraint failed: sounds.url"
  else
    let inserted := { sound with id := db.nextSoundId }
    .ok (inserted,
      { db with
        sounds := db.sounds ++ [inserted]
        nextSoundId := db.nextSoundId + 1 })

/-- Embedding of `SQLiteStorage.UpdateSound`: `UPDATE sounds SET title,
author, uses_count, category, updated_at WHERE id = ?` (url and
created_at are not touched). -/
def updateSound (db : DB) (sound : Sound) : DB :=
  { db with
    sounds := db.sounds.map (fun t =>
      if t.id = sound.id then
        { t with
          title := sound.title
          author := sound.author
          usesCount := sound.usesCount
          category := sound.category
          updatedAt := sound.updatedAt }
      else t) }

/-- Embedding of `SQLiteStorage.SaveSoundHistory`: `INSERT INTO
sound_history (sound_id, uses_count, recorded_at) VALUES (?, ?, now)`. -/
def saveSoundHistory (db : DB) (now soundId usesCount : Int) : DB :=
  { db with
    history := db.history ++
      [{ id := db.nextHistoryId, soundId := soundId, usesCount := usesCount,
         recordedAt := now }]
    nextHistoryId := db.nextHistoryId + 1 }

/-- The row-selection predicate of `GetSoundHistoryByTime`:
`sound_id = ? AND recorded_at >= cutoff` where
`cutoff = now - hoursAgo hours`. -/
def historyInWindow (now soundId : Int) (hoursAgo : Int) (h : SoundHistory) :
    Prop :=
  h.soundId = soundId ∧ h.recordedAt ≥ now - hoursAgo * 3600

instance (now soundId hoursAgo : Int) :
    DecidablePred (historyInWindow now soundId hoursAgo) := fun _ =>
  inferInstanceAs (Decidable (_ ∧ _))

/-- One step of the minimal-`recorded_at` scan: keep the earlier of the
row seen so far and the next row (the first row wins ties). -/
def earliestStep (acc : Option SoundHistory) (h : SoundHistory) :
    Option SoundHistory :=
  match acc with
  | none => some h
  | some a => if h.recordedAt < a.recordedAt then some h else acc

/-- The `ORDER BY recorded_at ASC LIMIT 1` part of `GetSoundHistoryByTime`:
a row of minimal `recorded_at` among the selected rows (the first such row
on ties), or `none` if no row matches. -/
def earliestRow (rows : List SoundHistory) : Option SoundHistory :=
  rows.foldl earliestStep none

/-- Embedding of `SQLiteStorage.GetSoundHistoryByTime`: the earliest
history row for `soundId` recorded at or after `now - hoursAgo` hours.
`sql.ErrNoRows` is mapped to `.ok none`; in this pure model no driver
error arises, so the result is always `.ok`. -/
def getSoundHistoryByTime (db : DB) (now soundId hoursAgo : Int) :
    Except Err (Option SoundHistory) :=
  .ok (earliestRow
    (db.history.filter (fun h => decide (historyInWindow now soundId hoursAgo h))))

/-- Embedding of `SQLiteStorage.GetSoundsByCategory`: `SELECT ... WHERE
category = ? ORDER BY updated_at DESC LIMIT ?`. -/
def getSoundsByCategory (db : DB) (category : String) (limit : Int) :
    List Sound :=
  ((db.sounds.filter (fun s => s.category = category)).insertionSort
    (fun a b => b.updatedAt ≤ a.updatedAt)).take limit.toNat

/-- The per-sound baseline-collection loop of `GetAllSoundsWithHistory`
(part_000 lines 264-274), abstracted over the history fetcher so that a
failing fetch can be expressed: the first fetch error aborts the whole
batch; a fetch returning `none` (no baseline) contributes nothing to the
map. -/
def buildHistoryMap (fetch : Int → Except Err (Option SoundHistory)) :
    List Sound → Except Err (List (Int × SoundHistory))
  | [] => .ok []
  | sound :: rest =>
    match fetch sound.id with
    | .error e => .error e
    | .ok none => buildHistoryMap fetch rest
    | .ok (some h) =>
      match buildHistoryMap fetch rest with
      | .error e => .error e
      | .ok m => .ok ((sound.id, h) :: m)

/-- Embedding of `SQLiteStorage.GetAllSoundsWithHistory`: the top 1000
sounds of the category together with a map from sound id to its baseline
history row. -/
def getAllSoundsWithHistory (db : DB) (now : Int) (category : String)
    (hoursAgo : Int) : Except Err (List Sound × List (Int × SoundHistory)) :=
  let sounds := getSoundsByCategory db category 1000
  match buildHistoryMap (fun soundId => getSoundHistoryByTime db now soundId hoursAgo)
      sounds with
  | .error e => .error e
  | .ok historyMap => .ok (sounds, historyMap)

/-- Embedding of `detector.DetectTrendingWithCriteria` end to end over the
storage model: load sounds and baselines, then run the pure core. -/
def DetectTrendingWithCriteria (db : DB) (now : Int) (category : String)
    (limit : Int) (criteria : TrendCriteria) : Except Err (List TrendingSound) :=
  match getAllSoundsWithHistory db now category criteria.lookbackHours with
  | .error e => .error ("failed to get sounds with history: " ++ e)
  | .ok (sounds, historyMap) => .ok (detectCore criteria limit sounds historyMap)

/-- Embedding of `detector.DetectTrending`: detection with the default
criteria. -/
def DetectTrending (db : DB) (now : Int) (category : String) (limit : Int) :
    Except Err (List TrendingSound) :=
  DetectTrendingWithCriteria db now category limit DefaultCriteria

/-! ## The interface-level helper `storage.SaveSoundWithHistory`

The Go helper is written against the `storage.Storage` interface, so it is
embedded against a record of state-passing operations and then
instantiated with the SQLite model. -/

/-- The operations of the Go `storage.Storage` interface that
`SaveSoundWithHistory` uses, as explicit state-passing functions over a
state type `σ`. -/
structure StorageIface (σ : Type) where
  getSoundByURL : String → σ → Except Err (Option Sound) × σ
  saveSound : Sound → σ → Except Err Sound × σ
  updateSound : Sound → σ → Except Err Unit × σ
  saveSoundHistory : Int → Int → σ → Except Err Unit × σ

/-- The create branch of `SaveSoundWithHistory` (storage.go lines 44-57
plus the final history insert): stamp the timestamps, insert, re-read by
url to learn the id, then append the history record. The Go code
dereferences the re-read result without a nil check; a `nil, nil` re-read
is modelled as the corresponding runtime panic, surfaced as an error. -/
def createPath {σ : Type} (S : StorageIface σ) (now : Int) (sound : Sound)
    (st : σ) : Except Err Unit × σ :=
  let sound := { sound with createdAt := now, updatedAt := now }
  match S.saveSound sound st with
  | (.error e, st) => (.error e, st)
  | (.ok sound, st) =>
    match S.getSoundByURL sound.url st with
    | (.error e, st) => (.error e, st)
    | (.ok none, st) => (.error "panic: nil pointer dereference", st)
    | (.ok (some created), st) =>
      S.saveSoundHistory created.id sound.usesCount st

/-- Embedding of `storage.SaveSoundWithHistory` (storage.go lines 33-61).
The Go condition is `if err == nil && existing != nil` — the update path
runs only when the lookup succeeded with a row; a lookup error or an
absent row both fall into the create branch. -/
def SaveSoundWithHistory {σ : Type} (S : StorageIface σ) (now : Int)
    (sound : Sound) (st : σ) : Except Err Unit × σ :=
  match S.getSoundByURL sound.url st with
  | (.ok (some existing), st) =>
    let sound := { sound with
      id := existing.id
      createdAt := existing.createdAt
      updatedAt := now }
    match S.updateSound sound st with
    | (.error e, st) => (.error e, st)
    | (.ok _, st) => S.saveSoundHistory sound.id sound.usesCount st
  | (_, st) => createPath S now sound st

/-- The SQLite storage model packaged as a `StorageIface` over `DB`.
`saveSoundHistory` stamps rows with the instant `now` (Go calls
`time.Now()` inside `SaveSoundHistory`). -/
def sqliteIface (now : Int) : StorageIface DB :=
  { getSoundByURL := fun url db => (.ok (getSoundByURL db url), db)
    saveSound := fun sound db =>
      match saveSound db sound with
      | .error e => (.error e, db)
      | .ok (inserted, db) => (.ok inserted, db)
    updateSound := fun sound db => (.ok (), updateSound db sound)
    saveSoundHistory := fun soundId usesCount db =>
      (.ok (), saveSoundHistory db now soundId usesCount) }

/-- Number of stored sounds carrying a given url. -/
def urlCount (db : DB) (url : String) : Nat :=
  (db.sounds.filter (fun s => s.url = url)).length

/-! ## A concrete detection scenario, shared by several witnesses

Category "tech", observed at instant 0. Sound 1 grew from 1000 to 2600
(growth 160%), sound 2 has a zero baseline and 600 current uses (the
"new sound" case), sound 3 grew from 1000 to 10999 (growth exactly
999.9%, the sentinel value). -/

def exSound1 : Sound :=
  { id := 1, title := "t1", author := "a1", url := "u1", usesCount := 2600,
    category := "tech", createdAt := 0, updatedAt := 0 }

def exSound2 : Sound :=
  { id := 2, title := "t2", author := "a2", url := "u2", usesCount := 600,
    category := "tech", createdAt := 0, updatedAt := 0 }

def exSound3 : Sound :=
  { id := 3, title := "t3", author := "a3", url := "u3", usesCount := 10999,
    category := "tech", createdAt := 0, updatedAt := 0 }

def exHist1 : SoundHistory :=
  { id := 1, soundId := 1, usesCount := 1000, recordedAt := 0 }

def exHist2 : SoundHistory :=
  { id := 2, soundId := 2, usesCount := 0, recordedAt := 0 }

def exHist3 : SoundHistory :=
  { id := 3, soundId := 3, usesCount := 1000, recordedAt := 0 }

def exSounds : List Sound := [exSound1, exSound2, exSound3]

def exMap : List (Int × SoundHistory) := [(1, exHist1), (2, exHist2), (3, exHist3)]

def exRes1 : TrendingSound :=
  { sound := exSound1, growthPercent := 160, oldUsesCount := 1000 }

def exRes2 : TrendingSound :=
  { sound := exSound2, growthPercent := sentinelGrowth, oldUsesCount := 0 }

def exRes3 : TrendingSound :=
  { sound := exSound3, growthPercent := sentinelGrowth, oldUsesCount := 1000 }

/-- The per-url uniqueness invariant of the `sounds` table: at most one
stored sound per url. -/
def UrlsUnique (db : DB) : Prop :=
  ∀ u, urlCount db u ≤ 1

/-- A storage whose sound lookup always fails with an I/O error while all
other operations behave like the SQLite model: used to exercise the error
branch of `SaveSoundWithHistory`. -/
def faultyLookupIface : StorageIface DB :=
  { sqliteIface 0 with
    getSoundByURL := fun _ db => (.error "connection lost", db) }

/-- A history fetcher that always fails: used to exercise the abort-on-
first-error behaviour of the baseline-collection loop. -/
def failFetch : Int → Except Err (Option SoundHistory) :=
  fun _ => .error "disk I/O error"

/-- A history fetcher that always reports absence (no baseline row). -/
def noneFetch : Int → Except Err (Option SoundHistory) :=
  fun _ => .ok none

/-- A history row for sound 1 recorded at instant 2 (the earlier one). -/
def exRowEarly : SoundHistory :=
  { id := 2, soundId := 1, usesCount := 20, recordedAt := 2 }

/-- A history row for sound 1 recorded at instant 5 (the later one). -/
def exRowLate : SoundHistory :=
  { id := 1, soundId := 1, usesCount := 10, recordedAt := 5 }

/-- A small concrete store used to exercise the baseline lookup: two
history rows for sound 1, stored latest first. -/
def dbW : DB :=
  { sounds := [exSound1], history := [exRowLate, exRowEarly],
    nextSoundId := 2, nextHistoryId := 3 }

theorem processSound_ex1 :
    processSound DefaultCriteria (some exHist1) exSound1 = some exRes1 := by
  unfold processSound
  norm_num [DefaultCriteria, calculateGrowth, exSound1, exHist1, exRes1]

theorem processSound_ex2 :
    processSound DefaultCriteria (some exHist2) exSound2 = some exRes2 := by
  unfold processSound
  norm_num [DefaultCriteria, exSound2, exHist2, exRes2]

theorem processSound_ex3 :
    processSound DefaultCriteria (some exHist3) exSound3 = some exRes3 := by
  unfold processSound
  norm_num [DefaultCriteria, calculateGrowth, sentinelGrowth, exSound3,
    exHist3, exRes3]

theorem filterMap_ex :
    exSounds.filterMap (fun sound =>
      processSound DefaultCriteria (exMap.lookup sound.id) sound) =
    [exRes1, exRes2, exRes3] := by
  have l1 : exMap.lookup exSound1.id = some exHist1 := by rfl
  have l2 : exMap.lookup exSound2.id = some exHist2 := by rfl
  have l3 : exMap.lookup exSound3.id = some exHist3 := by rfl
  simp only [exSounds, List.filterMap_cons, List.filterMap_nil, l1, l2, l3,
    processSound_ex1, processSound_ex2, processSound_ex3]

theorem sort_ex :
    [exRes1, exRes2, exRes3].insertionSort growthGe = [exRes2, exRes3, exRes1] := by
  have h12 : ¬ growthGe exRes1 exRes2 := by
    norm_num [growthGe, exRes1, exRes2, sentinelGrowth]
  have h13 : ¬ growthGe exRes1 exRes3 := by
    norm_num [growthGe, exRes1, exRes3, sentinelGrowth]
  have h23 : growthGe exRes2 exRes3 := by
    norm_num [growthGe, exRes2, exRes3]
  simp only [List.insertionSort, List.orderedInsert, if_pos h23, if_neg h12,
    if_neg h13]

theorem detectCore_ex :
    detectCore DefaultCriteria 10 exSounds exMap = [exRes2, exRes3, exRes1] := by
  simp only [detectCore, filterMap_ex, sort_ex]
  norm_num

/-! ## General lemmas about the detector pipeline -/

theorem processSound_spec {criteria : TrendCriteria} {hist : Option SoundHistory}
    {s : Sound} {r : TrendingSound}
    (h : processSound criteria hist s = some r) :
    r.sound = s ∧
    criteria.minUsesCount ≤ s.usesCount ∧ s.usesCount ≤ criteria.maxUsesCount ∧
    ∃ history, hist = some history ∧
      ((history.usesCount = 0 ∧ r.growthPercent = sentinelGrowth ∧
        r.oldUsesCount = 0) ∨
       (history.usesCount ≠ 0 ∧
        r.growthPercent = calculateGrowth history.usesCount s.usesCount ∧
        criteria.minGrowth ≤ r.growthPercent ∧
        r.oldUsesCount = history.usesCount)) := by
  cases hist with
  | none =>
    simp only [processSound] at h
    split_ifs at h
  | some history =>
    simp only [processSound] at h
    by_cases hband : s.usesCount < criteria.minUsesCount ∨
        s.usesCount > criteria.maxUsesCount
    · rw [if_pos hband] at h
      exact Option.noConfusion h
    · rw [if_neg hband] at h
      push_neg at hband
      by_cases h0 : history.usesCount = 0
      · rw [if_pos h0, if_pos hband.1] at h
        rw [Option.some_inj] at h
        subst h
        exact ⟨rfl, hband.1, hband.2, history, rfl, Or.inl ⟨h0, rfl, rfl⟩⟩
      · rw [if_neg h0] at h
        by_cases hg : calculateGrowth history.usesCount s.usesCount ≥
            criteria.minGrowth
        · rw [if_pos hg] at h
          rw [Option.some_inj] at h
          subst h
          exact ⟨rfl, hband.1, hband.2, history, rfl, Or.inr ⟨h0, rfl, hg, rfl⟩⟩
        · rw [if_neg hg] at h
          exact Option.noConfusion h

theorem mem_detectCore {criteria : TrendCriteria} {limit : Int}
    {sounds : List Sound} {historyMap : List (Int × SoundHistory)}
    {r : TrendingSound} (h : r ∈ detectCore criteria limit sounds historyMap) :
    ∃ s, s ∈ sounds ∧
      processSound criteria (historyMap.lookup s.id) s = some r := by
  simp only [detectCore] at h
  have hsorted : r ∈ (sounds.filterMap fun s =>
      processSound criteria (historyMap.lookup s.id) s).insertionSort growthGe := by
    split at h
    · exact List.mem_of_mem_take h
    · exact h
  have hmem := (List.perm_insertionSort growthGe _).mem_iff.mp hsorted
  exact List.mem_filterMap.mp hmem

theorem detectCore_sorted (criteria : TrendCriteria) (limit : Int)
    (sounds : List Sound) (historyMap : List (Int × SoundHistory)) :
    (detectCore criteria limit sounds historyMap).Sorted growthGe := by
  simp only [detectCore]
  split
  · exact (List.sorted_insertionSort growthGe _).sublist (List.take_sublist _ _)
  · exact List.sorted_insertionSort growthGe _

/-! ## General lemmas about the storage model -/

theorem earliestStep_none (h : SoundHistory) : earliestStep none h = some h :=
  rfl

theorem earliestStep_some (a h : SoundHistory) :
    earliestStep (some a) h =
      if h.recordedAt < a.recordedAt then some h else some a :=
  rfl

theorem earliestRow_foldl_spec (l : List SoundHistory) :
    ∀ (acc : Option SoundHistory) (h : SoundHistory),
      l.foldl earliestStep acc = some h →
      (h ∈ l ∨ acc = some h) ∧
      (∀ h2 ∈ l, h.recordedAt ≤ h2.recordedAt) ∧
      (∀ a, acc = some a → h.recordedAt ≤ a.recordedAt) := by
  induction l with
  | nil =>
    intro acc h hfold
    rw [List.foldl_nil] at hfold
    subst hfold
    refine ⟨Or.inr rfl, by simp, ?_⟩
    intro a ha
    rw [Option.some_inj] at ha
    subst ha
    exact le_refl _
  | cons x xs ih =>
    intro acc h hfold
    rw [List.foldl_cons] at hfold
    cases acc with
    | none =>
      rw [earliestStep_none] at hfold
      obtain ⟨hmem, hmin, hacc⟩ := ih (some x) h hfold
      have hstep : h.recordedAt ≤ x.recordedAt := hacc x rfl
      refine ⟨?_, ?_, fun a ha => Option.noConfusion ha⟩
      · rcases hmem with hm | hm
        · exact Or.inl (List.mem_cons_of_mem _ hm)
        · rw [Option.some_inj] at hm
          subst hm
          exact Or.inl (List.mem_cons_self _ _)
      · intro h2 hh2
        rcases List.mem_cons.mp hh2 with rfl | hh2
        · exact hstep
        · exact hmin h2 hh2
    | some a0 =>
      rw [earliestStep_some] at hfold
      by_cases hlt : x.recordedAt < a0.recordedAt
      · rw [if_pos hlt] at hfold
        obtain ⟨hmem, hmin, hacc⟩ := ih (some x) h hfold
        have hstep : h.recordedAt ≤ x.recordedAt := hacc x rfl
        refine ⟨?_, ?_, ?_⟩
        · rcases hmem with hm | hm
          · exact Or.inl (List.mem_cons_of_mem _ hm)
          · rw [Option.some_inj] at hm
            subst hm
            exact Or.inl (List.mem_cons_self _ _)
        · intro h2 hh2
          rcases List.mem_cons.mp hh2 with rfl | hh2
          · exact hstep
          · exact hmin h2 hh2
        · intro a ha
          rw [Option.some_inj] at ha
          subst ha
          exact le_of_lt (lt_of_le_of_lt hstep hlt)
      · rw [if_neg hlt] at hfold
        push_neg at hlt
        obtain ⟨hmem, hmin, hacc⟩ := ih (some a0) h hfold
        have hstep : h.recordedAt ≤ a0.recordedAt := hacc a0 rfl
        refine ⟨?_, ?_, ?_⟩
        · rcases hmem with hm | hm
          · exact Or.inl (List.mem_cons_of_mem _ hm)
          · exact Or.inr hm
        · intro h2 hh2
          rcases List.mem_cons.mp hh2 with rfl | hh2
          · exact le_trans hstep hlt
          · exact hmin h2 hh2
        · intro a ha
          rw [Option.some_inj] at ha
          subst ha
          exact hstep

theorem earliestRow_some {l : List SoundHistory} {h : SoundHistory}
    (hsome : earliestRow l = some h) :
    h ∈ l ∧ ∀ h2 ∈ l, h.recordedAt ≤ h2.recordedAt := by
  obtain ⟨hmem, hmin, _⟩ := earliestRow_foldl_spec l none h hsome
  rcases hmem with hm | hm
  · exact ⟨hm, hmin⟩
  · exact Option.noConfusion hm

theorem foldl_earliestStep_ne_none (ys : List SoundHistory) :
    ∀ a, ys.foldl earliestStep (some a) ≠ none := by
  induction ys with
  | nil =>
    intro a hc
    exact Option.noConfusion hc
  | cons y ys ihy =>
    intro a hc
    rw [List.foldl_cons, earliestStep_some] at hc
    by_cases hlt : y.recordedAt < a.recordedAt
    · rw [if_pos hlt] at hc
      exact ihy y hc
    · rw [if_neg hlt] at hc
      exact ihy a hc

theorem earliestRow_eq_none {l : List SoundHistory} :
    earliestRow l = none ↔ l = [] := by
  constructor
  · intro hnone
    cases l with
    | nil => rfl
    | cons x xs =>
      exfalso
      unfold earliestRow at hnone
      rw [List.foldl_cons, earliestStep_none] at hnone
      exact foldl_earliestStep_ne_none xs x hnone
  · intro hl
    subst hl
    rfl

theorem urlCount_updateSound (db : DB) (s : Sound) (u : String) :
    urlCount (updateSound db s) u = urlCount db u := by
  unfold urlCount updateSound
  simp only
  rw [List.filter_map, List.length_map]
  congr 1
  apply List.filter_congr
  intro t ht
  by_cases h : t.id = s.id <;> simp [h]

theorem urlCount_saveSoundHistory (db : DB) (now soundId usesCount : Int)
    (u : String) :
    urlCount (saveSoundHistory db now soundId usesCount) u = urlCount db u :=
  rfl

theorem urlCount_pos_of_found {db : DB} {u : String} {existing : Sound}
    (hfind : getSoundByURL db u = some existing) : 1 ≤ urlCount db u := by
  unfold getSoundByURL at hfind
  have hmem : existing ∈ db.sounds := List.mem_of_find?_eq_some hfind
  have hp := List.find?_some hfind
  have : existing ∈ db.sounds.filter (fun s => s.url = u) :=
    List.mem_filter.mpr ⟨hmem, hp⟩
  exact List.length_pos.mpr (List.ne_nil_of_mem this)

theorem saveSoundWithHistory_update_case (db : DB) (now : Int)
    (snd existing : Sound)
    (hfind : getSoundByURL db snd.url = some existing) :
    SaveSoundWithHistory (sqliteIface now) now snd db =
      (.ok (), saveSoundHistory
        (updateSound db
          { snd with
            id := existing.id
            createdAt := existing.createdAt
            updatedAt := now })
        now existing.id snd.usesCount) := by
  simp only [SaveSoundWithHistory, sqliteIface, hfind]

theorem saveSoundWithHistory_create_case (db : DB) (now : Int) (snd : Sound)
    (hfind : getSoundByURL db snd.url = none) :
    SaveSoundWithHistory (sqliteIface now) now snd db =
      (.ok (), saveSoundHistory
        { db with
          sounds := db.sounds ++
            [{ snd with
               id := db.nextSoundId
               createdAt := now
               updatedAt := now }]
          nextSoundId := db.nextSoundId + 1 }
        now db.nextSoundId snd.usesCount) := by
  unfold getSoundByURL at hfind
  have hall := List.find?_eq_none.mp hfind
  have hany : (db.sounds.any fun t => t.url = snd.url) = false := by
    rw [List.any_eq_false]
    exact hall
  have hfind2 : ((db.sounds ++
      [{ snd with
         id := db.nextSoundId
         createdAt := now
         updatedAt := now }]).find? fun s => s.url = snd.url) =
      some
        { snd with
          id := db.nextSoundId
          createdAt := now
          updatedAt := now } := by
    rw [List.find?_append, hfind, Option.none_or]
    exact List.find?_cons_of_pos _ (by simp)
  simp only [SaveSoundWithHistory, createPath, sqliteIface, saveSound,
    getSoundByURL, hfind, hany, hfind2]
  simp [hfind2]

theorem buildHistoryMap_lookup_none
    (fetch : Int → Except Err (Option SoundHistory)) (sounds : List Sound) :
    ∀ (m : List (Int × SoundHistory)) (soundId : Int),
      buildHistoryMap fetch sounds = .ok m →
      fetch soundId = .ok none →
      m.lookup soundId = none := by
  induction sounds with
  | nil =>
    intro m soundId hb hf
    unfold buildHistoryMap at hb
    rw [Except.ok.injEq] at hb
    subst hb
    rfl
  | cons s rest ih =>
    intro m soundId hb hf
    unfold buildHistoryMap at hb
    cases hfs : fetch s.id with
    | error e =>
      rw [hfs] at hb
      exact Except.noConfusion hb
    | ok o =>
      cases o with
      | none =>
        rw [hfs] at hb
        exact ih m soundId hb hf
      | some h =>
        rw [hfs] at hb
        cases hrest : buildHistoryMap fetch rest with
        | error e =>
          rw [hrest] at hb
          exact Except.noConfusion hb
        | ok m2 =>
          rw [hrest] at hb
          rw [Except.ok.injEq] at hb
          subst hb
          have hne : (soundId == s.id) = false := by
            rw [beq_eq_false_iff_ne]
            intro heq
            rw [← heq] at hfs
            rw [hfs] at hf
            exact Option.noConfusion (Except.ok.inj hf)
          rw [List.lookup_cons, hne]
          exact ih m2 soundId hrest hf

theorem buildHistoryMap_error
    (fetch : Int → Except Err (Option SoundHistory)) :
    ∀ (sounds : List Sound) (s : Sound) (e : Err),
      s ∈ sounds → fetch s.id = .error e →
      (buildHistoryMap fetch sounds).toOption = none := by
  intro sounds
  induction sounds with
  | nil =>
    intro s e hs _
    exact absurd hs (List.not_mem_nil s)
  | cons x rest ih =>
    intro s e hs hf
    unfold buildHistoryMap
    rcases List.mem_cons.mp hs with rfl | hs2
    · rw [hf]
      rfl
    · cases hfx : fetch x.id with
      | error e2 => rfl
      | ok o =>
        cases o with
        | none => exact ih s e hs2 hf
        | some h =>
          have := ih s e hs2 hf
          cases hrest : buildHistoryMap fetch rest with
          | error e2 => rfl
          | ok m2 =>
            rw [hrest] at this
            exact Option.noConfusion this

theorem buildHistoryMap_ok_of_fetch_ok
    (fetch : Int → Except Err (Option SoundHistory)) :
    ∀ sounds : List Sound,
      (∀ s ∈ sounds, ∃ o, fetch s.id = .ok o) →
      ∃ m, buildHistoryMap fetch sounds = .ok m := by
  intro sounds
  induction sounds with
  | nil =>
    intro _
    exact ⟨[], rfl⟩
  | cons x rest ih =>
    intro hok
    obtain ⟨o, ho⟩ := hok x (List.mem_cons_self _ _)
    obtain ⟨m2, hm2⟩ := ih (fun s hs => hok s (List.mem_cons_of_mem _ hs))
    unfold buildHistoryMap
    rw [ho]
    cases o with
    | none => exact ⟨m2, hm2⟩
    | some h =>
      rw [hm2]
      exact ⟨(x.id, h) :: m2, rfl⟩

theorem getAllSoundsWithHistory_ok (db : DB) (now : Int) (category : String)
    (hoursAgo : Int) :
    ∃ m, getAllSoundsWithHistory db now category hoursAgo =
      .ok (getSoundsByCategory db category 1000, m) := by
  obtain ⟨m, hm⟩ := buildHistoryMap_ok_of_fetch_ok
    (fun soundId => getSoundHistoryByTime db now soundId hoursAgo)
    (getSoundsByCategory db category 1000)
    (fun s _ => ⟨_, rfl⟩)
  refine ⟨m, ?_⟩
  simp only [getAllSoundsWithHistory, hm]

/-! ## Claim theorems -/

/-- C10: `calculateGrowth` is a total function with its division guarded:
for every pair of inputs, when `oldCount = 0` it returns 0 without
dividing, and the division branch runs only under `oldCount ≠ 0`, where
the rational divisor is provably nonzero. -/
theorem calculateGrowth_total_guarded (oldCount newCount : Int) :
    (oldCount = 0 → calculateGrowth oldCount newCount = 0) ∧
    (oldCount ≠ 0 → ((oldCount : ℚ) ≠ 0 ∧
      calculateGrowth oldCount newCount =
        ((newCount : ℚ) - (oldCount : ℚ)) / (oldCount : ℚ) * 100)) := by
  constructor
  · intro h
    simp [calculateGrowth, h]
  · intro h
    refine ⟨?_, ?_⟩
    · exact_mod_cast h
    · simp [calculateGrowth, h]

/-- Witness for C10 at `oldCount = 0` and at `oldCount = 5`. -/
theorem calculateGrowth_total_guarded_witness :
    calculateGrowth 0 700 = 0 ∧
    (((5 : Int) : ℚ) ≠ 0 ∧
      calculateGrowth 5 700 =
        (((700 : Int) : ℚ) - ((5 : Int) : ℚ)) / ((5 : Int) : ℚ) * 100) :=
  ⟨(calculateGrowth_total_guarded 0 700).1 rfl,
   (calculateGrowth_total_guarded 5 700).2 (by norm_num)⟩

/-- C1: every detection result whose baseline history row carries a
strictly positive usesCount has growthPercent exactly
(current - old) / old * 100, where current is the result sound's
usesCount and old the baseline usesCount. -/
theorem detect_growth_formula_pos_baseline
    {criteria : TrendCriteria} {limit : Int} {sounds : List Sound}
    {historyMap : List (Int × SoundHistory)} {r : TrendingSound}
    {h : SoundHistory}
    (hr : r ∈ detectCore criteria limit sounds historyMap)
    (hh : historyMap.lookup r.sound.id = some h)
    (hpos : 0 < h.usesCount) :
    r.growthPercent =
      ((r.sound.usesCount : ℚ) - (h.usesCount : ℚ)) / (h.usesCount : ℚ) *
        100 := by
  obtain ⟨s, _, he⟩ := mem_detectCore hr
  obtain ⟨hsound, _, _, history, hhist, hcases⟩ := processSound_spec he
  subst hsound
  rw [hh] at hhist
  rw [Option.some_inj] at hhist
  subst hhist
  rcases hcases with ⟨h0, _, _⟩ | ⟨_, hg, _, _⟩
  · exact absurd h0 (ne_of_gt hpos)
  · rw [hg]
    unfold calculateGrowth
    rw [if_neg (ne_of_gt hpos)]

/-- Witness for C1: sound 1 of the concrete scenario grew from 1000 to
2600, and its result carries exactly 160. -/
theorem detect_growth_formula_pos_baseline_witness :
    exRes1 ∈ detectCore DefaultCriteria 10 exSounds exMap ∧
    exMap.lookup exRes1.sound.id = some exHist1 ∧
    (0 : Int) < exHist1.usesCount ∧
    exRes1.growthPercent =
      ((exRes1.sound.usesCount : ℚ) - (exHist1.usesCount : ℚ)) /
        (exHist1.usesCount : ℚ) * 100 := by
  have hm : exRes1 ∈ detectCore DefaultCriteria 10 exSounds exMap := by
    rw [detectCore_ex]
    exact List.mem_cons_of_mem _ (List.mem_cons_of_mem _ (List.mem_cons_self _ _))
  have hl : exMap.lookup exRes1.sound.id = some exHist1 := by rfl
  have hp : (0 : Int) < exHist1.usesCount := by norm_num [exHist1]
  exact ⟨hm, hl, hp, detect_growth_formula_pos_baseline hm hl hp⟩

/-- C6: no detection result lies outside the configured uses-count band. -/
theorem detect_band
    {criteria : TrendCriteria} {limit : Int} {sounds : List Sound}
    {historyMap : List (Int × SoundHistory)} {r : TrendingSound}
    (hr : r ∈ detectCore criteria limit sounds historyMap) :
    criteria.minUsesCount ≤ r.sound.usesCount ∧
      r.sound.usesCount ≤ criteria.maxUsesCount := by
  obtain ⟨s, _, he⟩ := mem_detectCore hr
  obtain ⟨hsound, h1, h2, _⟩ := processSound_spec he
  subst hsound
  exact ⟨h1, h2⟩

/-- Witness for C6 on the concrete scenario. -/
theorem detect_band_witness :
    exRes1 ∈ detectCore DefaultCriteria 10 exSounds exMap ∧
    DefaultCriteria.minUsesCount ≤ exRes1.sound.usesCount ∧
    exRes1.sound.usesCount ≤ DefaultCriteria.maxUsesCount := by
  have hm : exRes1 ∈ detectCore DefaultCriteria 10 exSounds exMap := by
    rw [detectCore_ex]
    exact List.mem_cons_of_mem _ (List.mem_cons_of_mem _ (List.mem_cons_self _ _))
  exact ⟨hm, detect_band hm⟩

/-- C7: detection results are sorted by growthPercent descending: any two
adjacent results satisfy growth at i+1 less or equal growth at i. -/
theorem detect_sorted_desc
    {criteria : TrendCriteria} {limit : Int} {sounds : List Sound}
    {historyMap : List (Int × SoundHistory)} {i : Nat}
    {a b : TrendingSound}
    (ha : (detectCore criteria limit sounds historyMap)[i]? = some a)
    (hb : (detectCore criteria limit sounds historyMap)[i + 1]? = some b) :
    b.growthPercent ≤ a.growthPercent := by
  obtain ⟨hia, hga⟩ := List.getElem?_eq_some.mp ha
  obtain ⟨hib, hgb⟩ := List.getElem?_eq_some.mp hb
  have hp := detectCore_sorted criteria limit sounds historyMap
  have hrel := List.pairwise_iff_getElem.mp hp i (i + 1) hia hib
    (Nat.lt_succ_self i)
  rw [hga, hgb] at hrel
  exact hrel

/-- Witness for C7: in the concrete scenario the first two results have
growth 999.9 and 999.9. -/
theorem detect_sorted_desc_witness :
    (detectCore DefaultCriteria 10 exSounds exMap)[0]? = some exRes2 ∧
    (detectCore DefaultCriteria 10 exSounds exMap)[1]? = some exRes3 ∧
    exRes3.growthPercent ≤ exRes2.growthPercent := by
  have h0 : (detectCore DefaultCriteria 10 exSounds exMap)[0]? = some exRes2 := by
    rw [detectCore_ex]
    simp [List.getElem?_cons_zero]
  have h1 : (detectCore DefaultCriteria 10 exSounds exMap)[1]? = some exRes3 := by
    rw [detectCore_ex]
    simp [List.getElem?_cons_succ, List.getElem?_cons_zero]
  exact ⟨h0, h1, detect_sorted_desc h0 h1⟩

/-- C8: a positive limit bounds the number of results; a non-positive
limit applies no truncation, returning every accepted item in sorted
order. -/
theorem detect_limit (criteria : TrendCriteria) (limit : Int)
    (sounds : List Sound) (historyMap : List (Int × SoundHistory)) :
    (0 < limit →
      ((detectCore criteria limit sounds historyMap).length : Int) ≤ limit) ∧
    (limit ≤ 0 →
      detectCore criteria limit sounds historyMap =
        (sounds.filterMap (fun sound =>
          processSound criteria (historyMap.lookup sound.id) sound)).insertionSort
          growthGe) := by
  constructor
  · intro hpos
    simp only [detectCore]
    split
    · rw [List.length_take]
      omega
    · rename_i hc
      push_neg at hc
      exact hc hpos
  · intro hneg
    simp only [detectCore]
    rw [if_neg]
    intro hcon
    omega

/-- Witness for C8: with limit 10 the concrete scenario yields at most 10
results, and with limit 0 the full sorted accepted list is returned. -/
theorem detect_limit_witness :
    (0 : Int) < 10 ∧
    ((detectCore DefaultCriteria 10 exSounds exMap).length : Int) ≤ 10 ∧
    (0 : Int) ≤ 0 ∧
    detectCore DefaultCriteria 0 exSounds exMap =
      (exSounds.filterMap (fun sound =>
        processSound DefaultCriteria (exMap.lookup sound.id) sound)).insertionSort
        growthGe :=
  ⟨by norm_num,
   (detect_limit DefaultCriteria 10 exSounds exMap).1 (by norm_num),
   le_refl 0,
   (detect_limit DefaultCriteria 0 exSounds exMap).2 (le_refl 0)⟩

/-- C2 (amended): a sound whose baseline usesCount is 0 and whose current
usesCount lies inside the band is accepted, carrying oldUsesCount 0 and
the fixed sentinel growth value 999.9; the sentinel is however not
distinct from the values of the normal growth formula (see the
counterexample). -/
theorem zero_baseline_sentinel_accepted
    {criteria : TrendCriteria} {sounds : List Sound}
    {historyMap : List (Int × SoundHistory)} {s : Sound} {h : SoundHistory}
    (hs : s ∈ sounds) (hl : historyMap.lookup s.id = some h)
    (h0 : h.usesCount = 0)
    (hmin : criteria.minUsesCount ≤ s.usesCount)
    (hmax : s.usesCount ≤ criteria.maxUsesCount) :
    ({ sound := s, growthPercent := sentinelGrowth, oldUsesCount := 0 } :
      TrendingSound) ∈
      sounds.filterMap (fun t =>
        processSound criteria (historyMap.lookup t.id) t) := by
  apply List.mem_filterMap.mpr
  refine ⟨s, hs, ?_⟩
  rw [hl]
  simp only [processSound]
  rw [if_neg (by push_neg; exact ⟨hmin, hmax⟩), if_pos h0, if_pos hmin]

/-- Counterexample for C2 as stated: the sentinel 999.9 is not distinct
from the values of the normal growth formula — a sound with positive
baseline 1000 and current uses 10999 is accepted with growthPercent
exactly 999.9, equal to the sentinel, both through `calculateGrowth` and
end to end through the detection pipeline. -/
theorem zero_baseline_sentinel_counterexample :
    calculateGrowth 1000 10999 = sentinelGrowth ∧
    exRes3 ∈ detectCore DefaultCriteria 10 exSounds exMap ∧
    exRes3.oldUsesCount = 1000 ∧
    exRes3.growthPercent = sentinelGrowth := by
  refine ⟨?_, ?_, rfl, rfl⟩
  · norm_num [calculateGrowth, sentinelGrowth]
  · rw [detectCore_ex]
    exact List.mem_cons_of_mem _ (List.mem_cons_self _ _)

/-- Witness for the amended C2: sound 2 of the concrete scenario has
baseline 0 and 600 current uses, and is accepted with the sentinel. -/
theorem zero_baseline_sentinel_accepted_witness :
    exSound2 ∈ exSounds ∧
    exMap.lookup exSound2.id = some exHist2 ∧
    exHist2.usesCount = 0 ∧
    DefaultCriteria.minUsesCount ≤ exSound2.usesCount ∧
    exSound2.usesCount ≤ DefaultCriteria.maxUsesCount ∧
    ({ sound := exSound2, growthPercent := sentinelGrowth,
       oldUsesCount := 0 } : TrendingSound) ∈
      exSounds.filterMap (fun t =>
        processSound DefaultCriteria (exMap.lookup t.id) t) := by
  have hs : exSound2 ∈ exSounds :=
    List.mem_cons_of_mem _ (List.mem_cons_self _ _)
  have hl : exMap.lookup exSound2.id = some exHist2 := by rfl
  have h0 : exHist2.usesCount = 0 := rfl
  have hmin : DefaultCriteria.minUsesCount ≤ exSound2.usesCount := by
    norm_num [DefaultCriteria, exSound2]
  have hmax : exSound2.usesCount ≤ DefaultCriteria.maxUsesCount := by
    norm_num [DefaultCriteria, exSound2]
  exact ⟨hs, hl, h0, hmin, hmax,
    zero_baseline_sentinel_accepted hs hl h0 hmin hmax⟩

/-- C9: a storage error in the initial url lookup of
`SaveSoundWithHistory` is not propagated; the function silently proceeds
to the create branch exactly as if the sound were absent. -/
theorem lookup_error_takes_create_path {σ : Type} (S : StorageIface σ)
    (now : Int) (snd : Sound) (st st2 : σ) (e : Err)
    (h : S.getSoundByURL snd.url st = (.error e, st2)) :
    SaveSoundWithHistory S now snd st = createPath S now snd st2 := by
  unfold SaveSoundWithHistory
  rw [h]

/-- Witness for C9: with a lookup that always fails, the call runs the
create path on the empty store. -/
theorem lookup_error_takes_create_path_witness :
    faultyLookupIface.getSoundByURL exSound1.url DB.empty =
      (.error "connection lost", DB.empty) ∧
    SaveSoundWithHistory faultyLookupIface 0 exSound1 DB.empty =
      createPath faultyLookupIface 0 exSound1 DB.empty :=
  ⟨rfl, lookup_error_takes_create_path faultyLookupIface 0 exSound1
    DB.empty DB.empty "connection lost" rfl⟩

/-- C3: one call of `SaveSoundWithHistory` on a store with at most one
sound per url succeeds, preserves per-url uniqueness, leaves exactly one
sound under the saved url, and appends exactly one history record carrying
the observed usesCount; repeated identical calls therefore never create a
second sound for the same url. -/
theorem record_observation_unique_append (db : DB) (now : Int) (snd : Sound)
    (huniq : UrlsUnique db) :
    ∃ db2,
      SaveSoundWithHistory (sqliteIface now) now snd db = (.ok (), db2) ∧
      UrlsUnique db2 ∧
      urlCount db2 snd.url = 1 ∧
      ∃ rec, db2.history = db.history ++ [rec] ∧
        rec.usesCount = snd.usesCount := by
  cases hfind : getSoundByURL db snd.url with
  | some existing =>
    refine ⟨_, saveSoundWithHistory_update_case db now snd existing hfind,
      ?_, ?_, ?_⟩
    · intro u
      rw [urlCount_saveSoundHistory, urlCount_updateSound]
      exact huniq u
    · rw [urlCount_saveSoundHistory, urlCount_updateSound]
      exact le_antisymm (huniq snd.url) (urlCount_pos_of_found hfind)
    · exact ⟨_, rfl, rfl⟩
  | none =>
    have hempty : db.sounds.filter (fun s => s.url = snd.url) = [] := by
      rw [List.filter_eq_nil_iff]
      intro a ha
      exact List.find?_eq_none.mp hfind a ha
    refine ⟨_, saveSoundWithHistory_create_case db now snd hfind,
      ?_, ?_, ?_⟩
    · intro u
      rw [urlCount_saveSoundHistory]
      unfold urlCount
      simp only [List.filter_append, List.length_append]
      by_cases hu : snd.url = u
      · subst hu
        rw [hempty]
        simp
      · have : (([{ snd with
            id := db.nextSoundId
            createdAt := now
            updatedAt := now }] : List Sound).filter
              (fun s => s.url = u)) = [] := by
          simp [hu]
        rw [this]
        simpa using huniq u
    · rw [urlCount_saveSoundHistory]
      unfold urlCount
      simp only [List.filter_append, List.length_append]
      rw [hempty]
      simp
    · exact ⟨_, rfl, rfl⟩

/-- Witness for C3: saving sound 1 into the empty store. -/
theorem record_observation_unique_append_witness :
    UrlsUnique DB.empty ∧
    ∃ db2,
      SaveSoundWithHistory (sqliteIface 0) 0 exSound1 DB.empty =
        (.ok (), db2) ∧
      UrlsUnique db2 ∧
      urlCount db2 exSound1.url = 1 ∧
      ∃ rec, db2.history = DB.empty.history ++ [rec] ∧
        rec.usesCount = exSound1.usesCount := by
  have hu : UrlsUnique DB.empty := fun u => Nat.zero_le 1
  exact ⟨hu, record_observation_unique_append DB.empty 0 exSound1 hu⟩

/-- C4: `GetSoundHistoryByTime` always succeeds without error; it returns
`none` exactly when no history row for the sound lies at or after the
cutoff `now - hoursAgo` hours, and any row it returns is a stored in-window
row of minimal recordedAt among all in-window rows for that sound. -/
theorem earliest_snapshot_since_spec (db : DB) (now soundId hoursAgo : Int) :
    (getSoundHistoryByTime db now soundId hoursAgo =
      .ok (earliestRow (db.history.filter (fun h =>
        decide (historyInWindow now soundId hoursAgo h))))) ∧
    (getSoundHistoryByTime db now soundId hoursAgo = .ok none ↔
      db.history.filter (fun h =>
        decide (historyInWindow now soundId hoursAgo h)) = []) ∧
    (∀ h, getSoundHistoryByTime db now soundId hoursAgo = .ok (some h) →
      (h ∈ db.history ∧ historyInWindow now soundId hoursAgo h) ∧
      ∀ h2 ∈ db.history, historyInWindow now soundId hoursAgo h2 →
        h.recordedAt ≤ h2.recordedAt) := by
  refine ⟨rfl, ?_, ?_⟩
  · unfold getSoundHistoryByTime
    rw [Except.ok.injEq]
    exact earliestRow_eq_none
  · intro h hok
    unfold getSoundHistoryByTime at hok
    rw [Except.ok.injEq] at hok
    obtain ⟨hmem, hmin⟩ := earliestRow_some hok
    have hm2 := List.mem_filter.mp hmem
    refine ⟨⟨hm2.1, of_decide_eq_true hm2.2⟩, ?_⟩
    intro h2 hh2 hw2
    exact hmin h2 (List.mem_filter.mpr ⟨hh2, decide_eq_true hw2⟩)

/-- Witness for C4: on the concrete store the row recorded at instant 2 is
returned, and it is no later than the row recorded at instant 5. -/
theorem earliest_snapshot_since_spec_witness :
    getSoundHistoryByTime dbW 0 1 1 = .ok (some exRowEarly) ∧
    (exRowEarly ∈ dbW.history ∧ historyInWindow 0 1 1 exRowEarly) ∧
    (exRowLate ∈ dbW.history ∧ historyInWindow 0 1 1 exRowLate) ∧
    exRowEarly.recordedAt ≤ exRowLate.recordedAt := by
  have hok : getSoundHistoryByTime dbW 0 1 1 = .ok (some exRowEarly) := by rfl
  have hspec := (earliest_snapshot_since_spec dbW 0 1 1).2.2 exRowEarly hok
  have hlate : exRowLate ∈ dbW.history := List.mem_cons_self _ _
  have hwlate : historyInWindow 0 1 1 exRowLate := by decide
  exact ⟨hok, hspec.1, ⟨hlate, hwlate⟩, hspec.2 exRowLate hlate hwlate⟩

/-- C5: the baseline-collection loop distinguishes absence from failure:
a fetch returning no baseline leaves the sound out of the mapping in an
overall successful call, while a fetch error makes the whole batch return
an error carrying no partial data; the pure storage model itself always
succeeds, returning the category listing with the mapping. -/
theorem bulk_load_absence_vs_failure :
    (∀ (fetch : Int → Except Err (Option SoundHistory))
        (sounds : List Sound) (m : List (Int × SoundHistory))
        (soundId : Int),
      buildHistoryMap fetch sounds = .ok m →
      fetch soundId = .ok none →
      m.lookup soundId = none) ∧
    (∀ (fetch : Int → Except Err (Option SoundHistory))
        (sounds : List Sound) (s : Sound) (e : Err),
      s ∈ sounds → fetch s.id = .error e →
      (buildHistoryMap fetch sounds).toOption = none) ∧
    (∀ (db : DB) (now : Int) (category : String) (hoursAgo : Int),
      ∃ m, getAllSoundsWithHistory db now category hoursAgo =
        .ok (getSoundsByCategory db category 1000, m)) :=
  ⟨buildHistoryMap_lookup_none, buildHistoryMap_error,
   getAllSoundsWithHistory_ok⟩

/-- Witness for C5: an all-absent fetch yields an empty mapping with
success; an always-failing fetch makes the batch carry no data. -/
theorem bulk_load_absence_vs_failure_witness :
    buildHistoryMap noneFetch exSounds = .ok [] ∧
    noneFetch 1 = .ok none ∧
    ([] : List (Int × SoundHistory)).lookup 1 = none ∧
    exSound1 ∈ exSounds ∧
    failFetch exSound1.id = .error "disk I/O error" ∧
    (buildHistoryMap failFetch exSounds).toOption = none := by
  refine ⟨rfl, rfl, ?_, List.mem_cons_self _ _, rfl, ?_⟩
  · exact bulk_load_absence_vs_failure.1 noneFetch exSounds [] 1 rfl rfl
  · exact bulk_load_absence_vs_failure.2.1 failFetch exSounds exSound1
      "disk I/O error" (List.mem_cons_self _ _) rfl
